import Mathlib

/-!
Verification development for the SSL Watcher service (src/main.py).

The core state of the program is a pair of process-wide variables:
a registry of monitored domain strings (`domains`) and a notification
ledger (`notifications_sent`), a dictionary from domain string to the
days-until-expiry value at which the last alert was sent.

Network and SMTP effects are modelled by oracles: a `NetOutcome` describes
what the TLS handshake for one domain produced, and a `DeliveryOutcome`
describes what the mail transport did.  Every function below is translated
from the corresponding Python function in src/main.py; line references are
given in the doc comments.
-/

namespace SSLWatcher

/-- The `status` field of the dictionaries produced by `get_ssl_info`
(src/main.py lines 80 and 88): the strings "valid", "expired", "error". -/
inductive Status where
  | valid
  | expired
  | error
deriving DecidableEq, Repr

/-- The dictionary returned by `get_ssl_info` (src/main.py lines 72-82 on
success, lines 84-90 on failure).  Fields that the failure dictionary does
not populate are `Option`s.  The formatted `expiry_date` string is
presentation-only (it never enters any decision) and is omitted. -/
structure SSLInfo where
  domain : String
  clean_domain : String
  issuer : Option (List (String × String))
  valid_from : Option String
  valid_to : Option String
  days_until_expiry : Option Int
  status : Status
  error : Option String
deriving DecidableEq, Repr

/-- The `notifications_sent` dictionary (src/main.py line 37), keyed by the
untouched registry string, modelled as an association list in insertion
order, mirroring a Python dict. -/
abbrev Ledger := List (String × Int)

/-- Python dict membership / subscript read: first binding of the key. -/
def dictLookup (l : Ledger) (k : String) : Option Int :=
  match l with
  | [] => none
  | (k₁, v) :: rest => if k₁ = k then some v else dictLookup rest k

/-- Python dict assignment `d[k] = v`: overwrite the binding in place if the
key is present, otherwise append it (Python dicts keep insertion order). -/
def dictInsert (k : String) (v : Int) : Ledger → Ledger
  | [] => [(k, v)]
  | (k₁, v₁) :: rest =>
      if k₁ = k then (k, v) :: rest else (k₁, v₁) :: dictInsert k v rest

/-- Python `del d[k]`: drop the binding of `k`. -/
def dictErase (l : Ledger) (k : String) : Ledger :=
  match l with
  | [] => []
  | (k₁, v₁) :: rest => if k₁ = k then rest else (k₁, v₁) :: dictErase rest k

/-- Whether `pat` is an initial segment of `s`, matching on the pattern
first so that an exhausted pattern answers true regardless of the rest of
`s`. -/
def startsWith : List Char → List Char → Bool
  | [], _ => true
  | p :: ps, s =>
      match s with
      | [] => false
      | c :: cs => p == c && startsWith ps cs

/-- Whether `pat` occurs as a contiguous substring of `s`. -/
def occursIn (pat : List Char) : List Char → Bool
  | [] => pat.isEmpty
  | c :: cs => startsWith pat (c :: cs) || occursIn pat cs

/-- Worker for `pyReplace`.  While `skip` is positive the current character
belongs to an already matched occurrence and is dropped; at `skip = 0` the
scan either matches the pattern `o :: os` (emitting `new` and scheduling the
remaining `os.length` matched characters to be dropped) or copies one
character.  This is the left-to-right, non-overlapping scan of the Python
`str.replace` method. -/
def pyReplaceAux (o : Char) (os new : List Char) : Nat → List Char → List Char
  | _, [] => []
  | Nat.succ n, _ :: cs => pyReplaceAux o os new n cs
  | 0, c :: cs =>
      if startsWith (o :: os) (c :: cs) then
        new ++ pyReplaceAux o os new os.length cs
      else
        c :: pyReplaceAux o os new 0 cs

/-- Python `s.replace(old, new)` for a non-empty `old` (the only way it is
used in src/main.py line 63): every non-overlapping occurrence of `old`,
anywhere in the string, is replaced. -/
def pyReplace (s old new : List Char) : List Char :=
  match old with
  | [] => s
  | o :: os => pyReplaceAux o os new 0 s

/-- Python `s.split(sep)[0]` for a one-character separator: the characters
before the first occurrence of that character. -/
def firstSegment (sep : Char) (s : List Char) : List Char :=
  s.takeWhile (fun c => c ≠ sep)

/-- The domain-cleaning expression of src/main.py line 63:
`domain.replace('http://', '').replace('https://', '').replace('www.', '').split('/')[0]`. -/
def cleanDomainList (s : List Char) : List Char :=
  firstSegment '/'
    (pyReplace (pyReplace (pyReplace s "http://".toList []) "https://".toList []) "www.".toList [])

/-- String-level wrapper of `cleanDomainList`. -/
def cleanDomain (s : String) : String :=
  String.mk (cleanDomainList s.data)

/-- Oracle describing what the TLS connection attempt inside `get_ssl_info`
produced: either a peer certificate (issuer pairs, the two validity strings,
and the parsed notAfter timestamp together with the current time, both in
seconds), or an exception whose rendering is `errMsg`. -/
inductive NetOutcome where
  | success (issuer : List (String × String)) (notBefore notAfter : String)
      (expirySecs nowSecs : Int)
  | failure (errMsg : String)
deriving Repr

/-- `get_ssl_info` (src/main.py lines 59-90).  The success branch computes
`days_until_expiry = (expiry_date - datetime.now()).days`, i.e. the floor of
the difference in days, and classifies the status (line 80); the except
branch (lines 83-90) catches every exception and returns an error
dictionary preserving the raw input in both `domain` and `clean_domain`.
The Lean function is total: no exception crosses this boundary. -/
def get_ssl_info (domain : String) (out : NetOutcome) : SSLInfo :=
  match out with
  | .success issuer notBefore notAfter expirySecs nowSecs =>
      let days : Int := Int.fdiv (expirySecs - nowSecs) 86400
      { domain := domain
        clean_domain := cleanDomain domain
        issuer := some issuer
        valid_from := some notBefore
        valid_to := some notAfter
        days_until_expiry := some days
        status := if 0 < days then Status.valid else Status.expired
        error := none }
  | .failure msg =>
      { domain := domain
        clean_domain := domain
        issuer := none
        valid_from := none
        valid_to := none
        days_until_expiry := none
        status := Status.error
        error := some msg }

/-- The notification decision of `check_domains` (src/main.py lines 252-253):
`info['status'] == 'valid' and info['days_until_expiry'] <= 30` and then
`domain not in notifications_sent or notifications_sent[domain] != info['days_until_expiry']`.
The `none` branch mirrors the fact that the Python comparison is reached
only when the status is valid, and every snapshot produced by
`get_ssl_info` with valid status carries an integer day count; for a
hand-made snapshot with valid status and no day count Python would raise,
so that combination never reaches the ledger gate and is mapped to false. -/
def shouldNotify (domain : String) (info : SSLInfo) (sent : Ledger) : Bool :=
  if info.status = Status.valid then
    match info.days_until_expiry with
    | some d =>
        if d ≤ 30 then
          if dictLookup sent domain = none ∨ dictLookup sent domain ≠ some d then true
          else false
        else false
    | none => false
  else false

/-- The ledger write `notifications_sent[domain] = info['days_until_expiry']`
(src/main.py lines 257 and 304). -/
def recordSent (domain : String) (days : Int) (sent : Ledger) : Ledger :=
  dictInsert domain days sent

/-- Oracle for one SMTP delivery attempt inside `send_email_notification`. -/
inductive DeliveryOutcome where
  | delivered
  | failed (errMsg : String)
deriving Repr

/-- Observable events of the core, used to state ordering and frame
properties: an inspection of a domain, a send attempt (with its transport
result), the early return when no recipients are configured, a ledger
write, and the timer sleep of the background loop. -/
inductive Event where
  | inspect (domain : String)
  | sendAttempt (domain : String) (delivered : Bool)
  | noRecipients
  | record (domain : String) (days : Int)
  | sleep (secs : Nat)
deriving DecidableEq, Repr

/-- `send_email_notification` (src/main.py lines 180-244).  With no
configured recipients it returns before any SMTP traffic (lines 186-188);
otherwise the whole body is wrapped in try/except, so a transport failure
is printed and dropped (lines 243-244).  Either way the function returns
normally; its only observable output is the trace. -/
def send_email_notification (info : SSLInfo) (emails : List String)
    (out : DeliveryOutcome) : List Event :=
  if emails.isEmpty then [Event.noRecipients]
  else
    match out with
    | .delivered => [Event.sendAttempt info.domain true]
    | .failed _ => [Event.sendAttempt info.domain false]

/-- Ledger effect of one iteration of the `check_domains` loop body
(src/main.py lines 248-257) on one domain. -/
def checkStepLedger (net : String → NetOutcome) (sent : Ledger) (domain : String) : Ledger :=
  let info := get_ssl_info domain (net domain)
  match info.days_until_expiry, shouldNotify domain info sent with
  | some n, true => recordSent domain n sent
  | _, _ => sent

/-- One iteration of the `check_domains` loop body (src/main.py lines
248-257) with its event trace: inspect the domain, and when the
notification decision fires, attempt the send and then overwrite the
ledger entry — in that order, and regardless of the transport result.
When the decision fires the day count is necessarily present (`some n`);
the fallback arm therefore covers exactly the no-notification case. -/
def checkStep (net : String → NetOutcome) (emails : List String)
    (del : String → DeliveryOutcome) (acc : Ledger × List Event)
    (domain : String) : Ledger × List Event :=
  let info := get_ssl_info domain (net domain)
  match info.days_until_expiry, shouldNotify domain info acc.1 with
  | some n, true =>
      (recordSent domain n acc.1,
        acc.2 ++ [Event.inspect domain]
          ++ send_email_notification info emails (del domain)
          ++ [Event.record domain n])
  | _, _ => (acc.1, acc.2 ++ [Event.inspect domain])

/-- `check_domains` (src/main.py lines 246-257): the sequential pass over
the registry. -/
def check_domains (ds : List String) (net : String → NetOutcome)
    (emails : List String) (del : String → DeliveryOutcome)
    (sent : Ledger) : Ledger × List Event :=
  ds.foldl (checkStep net emails del) (sent, [])

/-- One iteration of the `background_checker` loop (src/main.py lines
261-264): `if domains: check_domains()` and then `time.sleep(3600)` —
the check pass runs first, the sleep comes after it. -/
def background_checker_iter (ds : List String) (net : String → NetOutcome)
    (emails : List String) (del : String → DeliveryOutcome)
    (sent : Ledger) : Ledger × List Event :=
  let step := if ds.isEmpty then (sent, ([] : List Event))
              else check_domains ds net emails del sent
  (step.1, step.2 ++ [Event.sleep 3600])

/-- The first `n` iterations of the `background_checker` loop (src/main.py
lines 259-264), with the registry and the oracles held fixed (the loop
itself never mutates them), accumulating the event trace.  The loop has no
exit condition, so the trace is defined for every `n`. -/
def background_checker_run (ds : List String) (net : String → NetOutcome)
    (emails : List String) (del : String → DeliveryOutcome)
    (sent : Ledger) : Nat → Ledger × List Event
  | 0 => (sent, [])
  | n + 1 =>
      let prev := background_checker_run ds net emails del sent n
      let it := background_checker_iter ds net emails del prev.1
      (it.1, prev.2 ++ it.2)

/-- `check_now` (src/main.py lines 337-343): builds the list of fresh
snapshots for every registered domain and returns it together with the
untouched ledger — the route body contains no notification logic and no
ledger write. -/
def check_now (ds : List String) (net : String → NetOutcome)
    (sent : Ledger) : List SSLInfo × Ledger :=
  (ds.map (fun d => get_ssl_info d (net d)), sent)

/-- The process-wide mutable state: the `domains` list and the
`notifications_sent` dictionary (src/main.py lines 36-37). -/
structure AppState where
  domains : List String
  notifications_sent : Ledger
deriving DecidableEq, Repr

/-- `add_domain` (src/main.py lines 293-305): the stripped form value is
`domain`; the guard `if domain and domain not in domains` requires a
non-empty string not already registered (exact string match).  On a
successful add the domain is inspected immediately and, when the alert
condition `status == valid and days <= 30` holds (line 301 — note: no
ledger gate here), a notification is sent and the ledger entry written. -/
def add_domain (domain : String) (net : String → NetOutcome)
    (emails : List String) (del : String → DeliveryOutcome)
    (st : AppState) : AppState × List Event :=
  if domain ≠ "" ∧ domain ∉ st.domains then
    let st₁ : AppState := ⟨st.domains ++ [domain], st.notifications_sent⟩
    let info := get_ssl_info domain (net domain)
    if info.status = Status.valid then
      match info.days_until_expiry with
      | some n =>
          if n ≤ 30 then
            (⟨st₁.domains, recordSent domain n st₁.notifications_sent⟩,
              [Event.inspect domain]
                ++ send_email_notification info emails (del domain)
                ++ [Event.record domain n])
          else (st₁, [Event.inspect domain])
      | none => (st₁, [Event.inspect domain])
    else (st₁, [Event.inspect domain])
  else (st, [])

/-- `remove_domain` (src/main.py lines 307-315): when the domain is
registered, `domains.remove(domain)` drops its first occurrence and, when a
ledger entry exists, `del notifications_sent[domain]` purges it. -/
def remove_domain (domain : String) (st : AppState) : AppState :=
  if domain ∈ st.domains then
    { domains := st.domains.erase domain
      notifications_sent :=
        if (dictLookup st.notifications_sent domain).isSome then
          dictErase st.notifications_sent domain
        else st.notifications_sent }
  else st

/-- States reachable from the initial empty state (src/main.py lines 36-37)
through the public operations: adding a domain, removing a domain, and a
scheduler check pass over the current registry. -/
inductive Reachable : AppState → Prop where
  | init : Reachable ⟨[], []⟩
  | add (domain : String) (net : String → NetOutcome) (emails : List String)
      (del : String → DeliveryOutcome) {st : AppState} :
      Reachable st → Reachable (add_domain domain net emails del st).1
  | remove (domain : String) {st : AppState} :
      Reachable st → Reachable (remove_domain domain st)
  | check (net : String → NetOutcome) (emails : List String)
      (del : String → DeliveryOutcome) {st : AppState} :
      Reachable st →
      Reachable ⟨st.domains,
        (check_domains st.domains net emails del st.notifications_sent).1⟩

/-! ### Dictionary lemmas -/

/-- The keys of a ledger, in order. -/
def ledgerKeys (l : Ledger) : List String := l.map Prod.fst

theorem dictLookup_dictInsert_self (k : String) (v : Int) (l : Ledger) :
    dictLookup (dictInsert k v l) k = some v := by
  induction l with
  | nil => simp [dictInsert, dictLookup]
  | cons kv rest ih =>
      obtain ⟨k₁, v₁⟩ := kv
      by_cases h : k₁ = k <;> simp [dictInsert, dictLookup, h, ih]

theorem mem_dictInsert {kv : String × Int} {k : String} {v : Int} {l : Ledger}
    (h : kv ∈ dictInsert k v l) : kv ∈ l ∨ kv = (k, v) := by
  induction l with
  | nil =>
      simp [dictInsert] at h
      simp [h]
  | cons kv₁ rest ih =>
      obtain ⟨k₁, v₁⟩ := kv₁
      by_cases hk : k₁ = k
      · simp [dictInsert, hk] at h
        rcases h with h | h
        · right; simp [h]
        · left; simp [h]
      · simp [dictInsert, hk] at h
        rcases h with h | h
        · left; simp [h]
        · rcases ih h with h₂ | h₂
          · left; simp [h₂]
          · right; exact h₂

theorem mem_ledgerKeys_dictInsert {a k : String} {v : Int} {l : Ledger}
    (h : a ∈ ledgerKeys (dictInsert k v l)) : a ∈ ledgerKeys l ∨ a = k := by
  simp only [ledgerKeys, List.mem_map] at h ⊢
  obtain ⟨kv, hkv, rfl⟩ := h
  rcases mem_dictInsert hkv with h₂ | h₂
  · exact Or.inl ⟨kv, h₂, rfl⟩
  · subst h₂; exact Or.inr rfl

theorem nodup_ledgerKeys_dictInsert {k : String} {v : Int} {l : Ledger}
    (h : (ledgerKeys l).Nodup) : (ledgerKeys (dictInsert k v l)).Nodup := by
  induction l with
  | nil => simp [dictInsert, ledgerKeys]
  | cons kv rest ih =>
      obtain ⟨k₁, v₁⟩ := kv
      simp only [ledgerKeys, List.map_cons, List.nodup_cons] at h
      by_cases hk : k₁ = k
      · subst hk
        simpa [dictInsert, ledgerKeys] using h
      · have h₂ := ih h.2
        have h₃ : k₁ ∉ ledgerKeys (dictInsert k v rest) := by
          intro hmem
          rcases mem_ledgerKeys_dictInsert hmem with h₄ | h₄
          · exact h.1 h₄
          · exact hk h₄
        have h₅ : ledgerKeys (dictInsert k v ((k₁, v₁) :: rest))
            = k₁ :: ledgerKeys (dictInsert k v rest) := by
          simp [dictInsert, hk, ledgerKeys]
        rw [h₅]
        exact List.nodup_cons.mpr ⟨h₃, h₂⟩

theorem dictErase_sublist (l : Ledger) (k : String) : List.Sublist (dictErase l k) l := by
  induction l with
  | nil => simp [dictErase]
  | cons kv rest ih =>
      obtain ⟨k₁, v₁⟩ := kv
      by_cases hk : k₁ = k
      · rw [show dictErase ((k₁, v₁) :: rest) k = rest from by simp [dictErase, hk]]
        exact List.sublist_cons_self (k₁, v₁) rest
      · rw [show dictErase ((k₁, v₁) :: rest) k = (k₁, v₁) :: dictErase rest k from by
          simp [dictErase, hk]]
        exact List.Sublist.cons₂ (k₁, v₁) ih

theorem nodup_ledgerKeys_dictErase {l : Ledger} {k : String}
    (h : (ledgerKeys l).Nodup) : (ledgerKeys (dictErase l k)).Nodup :=
  h.sublist (List.Sublist.map Prod.fst (dictErase_sublist l k))

theorem mem_dictErase_of_nodup {kv : String × Int} {l : Ledger} {k : String}
    (hnd : (ledgerKeys l).Nodup) (h : kv ∈ dictErase l k) : kv ∈ l ∧ kv.1 ≠ k := by
  induction l with
  | nil => simp [dictErase] at h
  | cons kv₁ rest ih =>
      obtain ⟨k₁, v₁⟩ := kv₁
      simp only [ledgerKeys, List.map_cons, List.nodup_cons] at hnd
      by_cases hk : k₁ = k
      · subst hk
        simp only [dictErase, if_pos rfl] at h
        refine ⟨List.mem_cons_of_mem _ h, ?_⟩
        intro hq
        exact hnd.1 (by simpa [ledgerKeys, ← hq] using List.mem_map_of_mem Prod.fst h)
      · simp only [dictErase, if_neg hk] at h
        rcases List.mem_cons.mp h with h₂ | h₂
        · exact ⟨by simp [h₂], by simp [h₂, hk]⟩
        · obtain ⟨h₃, h₄⟩ := ih hnd.2 h₂
          exact ⟨List.mem_cons_of_mem _ h₃, h₄⟩

theorem dictLookup_some_mem {l : Ledger} {k : String} {v : Int}
    (h : dictLookup l k = some v) : (k, v) ∈ l := by
  induction l with
  | nil => simp [dictLookup] at h
  | cons kv rest ih =>
      obtain ⟨k₁, v₁⟩ := kv
      by_cases hk : k₁ = k
      · subst hk
        simp [dictLookup] at h
        simp [h]
      · simp [dictLookup, hk] at h
        exact List.mem_cons_of_mem _ (ih h)

theorem mem_dictLookup_isSome {l : Ledger} {k : String} {v : Int}
    (h : (k, v) ∈ l) : (dictLookup l k).isSome := by
  induction l with
  | nil => simp at h
  | cons kv rest ih =>
      obtain ⟨k₁, v₁⟩ := kv
      by_cases hk : k₁ = k
      · simp [dictLookup, hk]
      · rcases List.mem_cons.mp h with h₂ | h₂
        · exact absurd (congrArg Prod.fst h₂).symm hk
        · simpa [dictLookup, hk] using ih h₂

theorem dictLookup_dictErase_self {l : Ledger} {k : String}
    (hnd : (ledgerKeys l).Nodup) : dictLookup (dictErase l k) k = none := by
  cases h : dictLookup (dictErase l k) k with
  | none => rfl
  | some v =>
      exact absurd rfl (mem_dictErase_of_nodup hnd (dictLookup_some_mem h)).2

theorem dictInsert_idem (k : String) (v : Int) (l : Ledger) :
    dictInsert k v (dictInsert k v l) = dictInsert k v l := by
  induction l with
  | nil => simp [dictInsert]
  | cons kv rest ih =>
      obtain ⟨k₁, v₁⟩ := kv
      by_cases hk : k₁ = k
      · simp [dictInsert, hk]
      · simp [dictInsert, hk, ih]

/-! ### Replace and normalization lemmas -/

theorem startsWith_append_self (l t : List Char) : startsWith l (l ++ t) = true := by
  induction l with
  | nil => rfl
  | cons a l ih => simp [startsWith, ih]

theorem pyReplaceAux_of_not_occursIn {o : Char} {os : List Char} (new : List Char)
    {s : List Char} (h : occursIn (o :: os) s = false) :
    pyReplaceAux o os new 0 s = s := by
  induction s with
  | nil => rfl
  | cons c cs ih =>
      simp only [occursIn, Bool.or_eq_false_iff] at h
      simp [pyReplaceAux, h.1, ih h.2]

theorem pyReplaceAux_skip (o : Char) (os new : List Char) (l t : List Char) :
    pyReplaceAux o os new l.length (l ++ t) = pyReplaceAux o os new 0 t := by
  induction l with
  | nil => rfl
  | cons a l ih => simpa [pyReplaceAux] using ih

theorem pyReplaceAux_matched (o : Char) (os new t : List Char) :
    pyReplaceAux o os new 0 ((o :: os) ++ t) = new ++ pyReplaceAux o os new 0 t := by
  have hg : startsWith (o :: os) (o :: (os ++ t)) = true := startsWith_append_self (o :: os) t
  simp [pyReplaceAux, hg, pyReplaceAux_skip o os new os t]

theorem pyReplace_of_not_occursIn {pat : List Char} (new : List Char) {s : List Char}
    (h : occursIn pat s = false) : pyReplace s pat new = s := by
  cases pat with
  | nil =>
      cases s with
      | nil => rfl
      | cons c cs => rfl
  | cons o os => exact pyReplaceAux_of_not_occursIn new h

theorem pyReplace_matched (o : Char) (os : List Char) (new t : List Char) :
    pyReplace ((o :: os) ++ t) (o :: os) new = new ++ pyReplaceAux o os new 0 t :=
  pyReplaceAux_matched o os new t

theorem firstSegment_append {host p : List Char} (sep : Char)
    (hhost : ∀ c ∈ host, c ≠ sep) (hp : p = [] ∨ p.head? = some sep) :
    firstSegment sep (host ++ p) = host := by
  induction host with
  | nil =>
      rcases hp with h | h
      · simp [h, firstSegment]
      · cases p with
        | nil => simp [firstSegment]
        | cons c cs =>
            simp only [List.head?] at h
            injection h with h
            simp [firstSegment, List.takeWhile, h]
  | cons a host ih =>
      have ha : a ≠ sep := hhost a (by simp)
      have ih₂ := ih (fun c hc => hhost c (by simp [hc]))
      simpa [firstSegment, List.takeWhile, ha] using ih₂

/-! ### Check-pass lemmas -/

theorem shouldNotify_true_iff (domain : String) (info : SSLInfo) (sent : Ledger) :
    shouldNotify domain info sent = true ↔
      info.status = Status.valid ∧ ∃ n, info.days_until_expiry = some n ∧ n ≤ 30 ∧
        (dictLookup sent domain = none ∨ dictLookup sent domain ≠ some n) := by
  unfold shouldNotify
  by_cases hs : info.status = Status.valid
  · cases hd : info.days_until_expiry with
    | none => simp [hs, hd]
    | some d =>
        by_cases h30 : d ≤ 30
        · by_cases hg : dictLookup sent domain = none ∨ dictLookup sent domain ≠ some d
          · simp [hs, hd, h30, hg]
          · simp [hs, hd, h30, hg]
        · simp [hs, hd, h30]
  · simp [hs]

theorem checkStep_fst (net : String → NetOutcome) (emails : List String)
    (del : String → DeliveryOutcome) (acc : Ledger × List Event) (d : String) :
    (checkStep net emails del acc d).1 = checkStepLedger net acc.1 d := by
  unfold checkStep checkStepLedger
  cases hd : (get_ssl_info d (net d)).days_until_expiry with
  | none => simp [hd]
  | some n => cases hs : shouldNotify d (get_ssl_info d (net d)) acc.1 <;> simp [hd, hs]

theorem foldl_checkStep_fst (ds : List String) (net : String → NetOutcome)
    (emails : List String) (del : String → DeliveryOutcome) (acc : Ledger × List Event) :
    (ds.foldl (checkStep net emails del) acc).1
      = ds.foldl (checkStepLedger net) acc.1 := by
  induction ds generalizing acc with
  | nil => rfl
  | cons d ds ih =>
      simp only [List.foldl_cons]
      rw [ih (checkStep net emails del acc d), checkStep_fst]

theorem check_domains_fst (ds : List String) (net : String → NetOutcome)
    (emails : List String) (del : String → DeliveryOutcome) (sent : Ledger) :
    (check_domains ds net emails del sent).1
      = ds.foldl (checkStepLedger net) sent :=
  foldl_checkStep_fst ds net emails del (sent, [])

theorem mem_checkStepLedger {kv : String × Int} {net : String → NetOutcome}
    {sent : Ledger} {d : String} (h : kv ∈ checkStepLedger net sent d) :
    kv ∈ sent ∨ kv.1 = d := by
  cases hd : (get_ssl_info d (net d)).days_until_expiry with
  | none =>
      simp only [checkStepLedger, hd] at h
      exact Or.inl h
  | some n =>
      cases hs : shouldNotify d (get_ssl_info d (net d)) sent with
      | false =>
          simp only [checkStepLedger, hd, hs] at h
          exact Or.inl h
      | true =>
          simp only [checkStepLedger, hd, hs, recordSent] at h
          rcases mem_dictInsert h with h₂ | h₂
          · exact Or.inl h₂
          · exact Or.inr (congrArg Prod.fst h₂)

theorem mem_foldl_checkStepLedger {kv : String × Int} {net : String → NetOutcome}
    {ds : List String} {sent : Ledger}
    (h : kv ∈ ds.foldl (checkStepLedger net) sent) : kv ∈ sent ∨ kv.1 ∈ ds := by
  induction ds generalizing sent with
  | nil => exact Or.inl h
  | cons d ds ih =>
      rcases ih h with h₂ | h₂
      · rcases mem_checkStepLedger h₂ with h₃ | h₃
        · exact Or.inl h₃
        · exact Or.inr (by simp [h₃])
      · exact Or.inr (by simp [h₂])

theorem nodup_checkStepLedger {net : String → NetOutcome} {sent : Ledger} {d : String}
    (h : (ledgerKeys sent).Nodup) : (ledgerKeys (checkStepLedger net sent d)).Nodup := by
  cases hd : (get_ssl_info d (net d)).days_until_expiry with
  | none =>
      simp only [checkStepLedger, hd]
      exact h
  | some n =>
      cases hs : shouldNotify d (get_ssl_info d (net d)) sent with
      | false =>
          simp only [checkStepLedger, hd, hs]
          exact h
      | true =>
          simp only [checkStepLedger, hd, hs, recordSent]
          exact nodup_ledgerKeys_dictInsert h

theorem nodup_foldl_checkStepLedger {net : String → NetOutcome} {ds : List String}
    {sent : Ledger} (h : (ledgerKeys sent).Nodup) :
    (ledgerKeys (ds.foldl (checkStepLedger net) sent)).Nodup := by
  induction ds generalizing sent with
  | nil => exact h
  | cons d ds ih => exact ih (nodup_checkStepLedger h)

/-- Whether an event is the timer sleep of the background loop. -/
def isSleep : Event → Bool
  | Event.sleep _ => true
  | _ => false

theorem countP_isSleep_send (info : SSLInfo) (emails : List String)
    (out : DeliveryOutcome) :
    (send_email_notification info emails out).countP isSleep = 0 := by
  by_cases h : emails.isEmpty <;> cases out <;> simp [send_email_notification, h, isSleep]

theorem checkStep_snd_countP (net : String → NetOutcome) (emails : List String)
    (del : String → DeliveryOutcome) (acc : Ledger × List Event) (d : String) :
    (checkStep net emails del acc d).2.countP isSleep = acc.2.countP isSleep := by
  unfold checkStep
  cases hd : (get_ssl_info d (net d)).days_until_expiry with
  | none => simp [hd, isSleep]
  | some n =>
      cases hs : shouldNotify d (get_ssl_info d (net d)) acc.1 <;>
        simp [hd, hs, isSleep, List.countP_append, countP_isSleep_send]

theorem foldl_checkStep_countP (ds : List String) (net : String → NetOutcome)
    (emails : List String) (del : String → DeliveryOutcome) (acc : Ledger × List Event) :
    (ds.foldl (checkStep net emails del) acc).2.countP isSleep
      = acc.2.countP isSleep := by
  induction ds generalizing acc with
  | nil => rfl
  | cons d ds ih =>
      simp only [List.foldl_cons]
      rw [ih (checkStep net emails del acc d), checkStep_snd_countP]

theorem mem_checkStep_snd {e : Event} (net : String → NetOutcome) (emails : List String)
    (del : String → DeliveryOutcome) (acc : Ledger × List Event) (d : String)
    (h : e ∈ acc.2) : e ∈ (checkStep net emails del acc d).2 := by
  unfold checkStep
  cases hd : (get_ssl_info d (net d)).days_until_expiry with
  | none => simp [hd, h]
  | some n =>
      cases hs : shouldNotify d (get_ssl_info d (net d)) acc.1 <;> simp [hd, hs, h]

theorem inspect_mem_checkStep_snd (net : String → NetOutcome) (emails : List String)
    (del : String → DeliveryOutcome) (acc : Ledger × List Event) (d : String) :
    Event.inspect d ∈ (checkStep net emails del acc d).2 := by
  unfold checkStep
  cases hd : (get_ssl_info d (net d)).days_until_expiry with
  | none => simp [hd]
  | some n =>
      cases hs : shouldNotify d (get_ssl_info d (net d)) acc.1 <;> simp [hd, hs]

theorem mem_foldl_checkStep_snd {e : Event} (net : String → NetOutcome)
    (emails : List String) (del : String → DeliveryOutcome)
    {ds : List String} (acc : Ledger × List Event) (h : e ∈ acc.2) :
    e ∈ (ds.foldl (checkStep net emails del) acc).2 := by
  induction ds generalizing acc with
  | nil => exact h
  | cons d ds ih =>
      exact ih (checkStep net emails del acc d) (mem_checkStep_snd net emails del acc d h)

theorem inspect_mem_foldl_checkStep (net : String → NetOutcome) (emails : List String)
    (del : String → DeliveryOutcome) {ds : List String} {d : String}
    (acc : Ledger × List Event) (h : d ∈ ds) :
    Event.inspect d ∈ (ds.foldl (checkStep net emails del) acc).2 := by
  induction ds generalizing acc with
  | nil => simp at h
  | cons d₁ ds ih =>
      simp only [List.foldl_cons]
      rcases List.mem_cons.mp h with h₂ | h₂
      · subst h₂
        exact mem_foldl_checkStep_snd net emails del (checkStep net emails del acc d)
          (inspect_mem_checkStep_snd net emails del acc d)
      · exact ih (checkStep net emails del acc d₁) h₂

/-! ### State-machine lemmas -/

theorem add_domain_result (domain : String) (net : String → NetOutcome)
    (emails : List String) (del : String → DeliveryOutcome) (st : AppState) :
    (add_domain domain net emails del st).1 = st ∨
    (domain ∉ st.domains ∧
      (add_domain domain net emails del st).1.domains = st.domains ++ [domain] ∧
      ((add_domain domain net emails del st).1.notifications_sent
          = st.notifications_sent ∨
        ∃ n, (add_domain domain net emails del st).1.notifications_sent
          = recordSent domain n st.notifications_sent)) := by
  by_cases hc : domain ≠ "" ∧ domain ∉ st.domains
  · right
    by_cases hs : (get_ssl_info domain (net domain)).status = Status.valid
    · cases hd : (get_ssl_info domain (net domain)).days_until_expiry with
      | none =>
          exact ⟨hc.2, by simp [add_domain, hc, hs, hd],
            Or.inl (by simp [add_domain, hc, hs, hd])⟩
      | some n =>
          by_cases h30 : n ≤ 30
          · exact ⟨hc.2, by simp [add_domain, hc, hs, hd, h30],
              Or.inr ⟨n, by simp [add_domain, hc, hs, hd, h30]⟩⟩
          · exact ⟨hc.2, by simp [add_domain, hc, hs, hd, h30],
              Or.inl (by simp [add_domain, hc, hs, hd, h30])⟩
    · exact ⟨hc.2, by simp [add_domain, hc, hs],
        Or.inl (by simp [add_domain, hc, hs])⟩
  · left
    rw [add_domain, if_neg hc]

theorem remove_domain_result (domain : String) (st : AppState) :
    (domain ∉ st.domains ∧ remove_domain domain st = st) ∨
    (domain ∈ st.domains ∧
      (remove_domain domain st).domains = st.domains.erase domain ∧
      ((remove_domain domain st).notifications_sent
          = dictErase st.notifications_sent domain ∨
        ((remove_domain domain st).notifications_sent = st.notifications_sent ∧
          dictLookup st.notifications_sent domain = none))) := by
  by_cases hm : domain ∈ st.domains
  · right
    by_cases hl : (dictLookup st.notifications_sent domain).isSome
    · exact ⟨hm, by simp [remove_domain, hm, hl], Or.inl (by simp [remove_domain, hm, hl])⟩
    · exact ⟨hm, by simp [remove_domain, hm, hl],
        Or.inr ⟨by simp [remove_domain, hm, hl], Option.not_isSome_iff_eq_none.mp hl⟩⟩
  · exact Or.inl ⟨hm, by rw [remove_domain, if_neg hm]⟩

/-- Structural well-formedness of every reachable state: the registry has no
duplicate entries, the ledger has no duplicate keys, and every ledger key is
a registered domain. -/
theorem reachable_wf {st : AppState} (h : Reachable st) :
    st.domains.Nodup ∧ (ledgerKeys st.notifications_sent).Nodup ∧
      ∀ kv ∈ st.notifications_sent, kv.1 ∈ st.domains := by
  induction h with
  | init => exact ⟨List.nodup_nil, List.nodup_nil, by simp⟩
  | @add domain net emails del st hr ih =>
      rcases add_domain_result domain net emails del st with h₁ | ⟨hnm, hdom, hsent⟩
      · rw [h₁]; exact ih
      · refine ⟨?_, ?_, ?_⟩
        · rw [hdom]
          refine List.Nodup.append ih.1 (List.nodup_singleton domain) ?_
          intro x hx hx₂
          rw [List.mem_singleton] at hx₂
          subst hx₂
          exact hnm hx
        · rcases hsent with h₂ | ⟨n, h₂⟩
          · rw [h₂]; exact ih.2.1
          · rw [h₂]; exact nodup_ledgerKeys_dictInsert ih.2.1
        · intro kv hkv
          rw [hdom]
          rcases hsent with h₂ | ⟨n, h₂⟩
          · rw [h₂] at hkv
            exact List.mem_append_left _ (ih.2.2 kv hkv)
          · rw [h₂] at hkv
            rcases mem_dictInsert hkv with h₃ | h₃
            · exact List.mem_append_left _ (ih.2.2 kv h₃)
            · exact List.mem_append_right _ (by simp [h₃])
  | @remove domain st hr ih =>
      rcases remove_domain_result domain st with ⟨hnm, h₁⟩ | ⟨hm, hdom, hsent⟩
      · rw [h₁]; exact ih
      · refine ⟨?_, ?_, ?_⟩
        · rw [hdom]; exact ih.1.erase domain
        · rcases hsent with h₂ | ⟨h₂, _⟩
          · rw [h₂]; exact nodup_ledgerKeys_dictErase ih.2.1
          · rw [h₂]; exact ih.2.1
        · intro kv hkv
          rw [hdom]
          rcases hsent with h₂ | ⟨h₂, hnone⟩
          · rw [h₂] at hkv
            obtain ⟨hmem, hne⟩ := mem_dictErase_of_nodup ih.2.1 hkv
            exact (List.mem_erase_of_ne hne).mpr (ih.2.2 kv hmem)
          · rw [h₂] at hkv
            obtain ⟨a, b⟩ := kv
            have hne : a ≠ domain := by
              intro hq
              subst hq
              have h₃ := mem_dictLookup_isSome hkv
              rw [hnone] at h₃
              simp at h₃
            exact (List.mem_erase_of_ne hne).mpr (ih.2.2 (a, b) hkv)
  | @check net emails del st hr ih =>
      refine ⟨ih.1, ?_, ?_⟩
      · show (ledgerKeys (check_domains st.domains net emails del st.notifications_sent).1).Nodup
        rw [check_domains_fst]
        exact nodup_foldl_checkStepLedger ih.2.1
      · intro kv hkv
        have hkv₂ : kv ∈ (check_domains st.domains net emails del st.notifications_sent).1 := hkv
        rw [check_domains_fst] at hkv₂
        rcases mem_foldl_checkStepLedger hkv₂ with h₂ | h₂
        · exact ih.2.2 kv h₂
        · exact h₂

/-- A sample network oracle: every handshake succeeds with a certificate ten
days from expiry. -/
def netSample : String → NetOutcome := fun _ => NetOutcome.success [] "nb" "na" 864000 0

/-- A sample delivery oracle: every send succeeds. -/
def delSample : String → DeliveryOutcome := fun _ => DeliveryOutcome.delivered

/-! ### Normalization stepping lemmas

The pattern strings never start a match inside one another, so scanning the
concrete prefixes reduces definitionally. -/

theorem occursIn_http_of_https (r : List Char) :
    occursIn "http://".toList ("https://".toList ++ r)
      = occursIn "http://".toList r := rfl

theorem occursIn_http_of_www (r : List Char) :
    occursIn "http://".toList ("www.".toList ++ r)
      = occursIn "http://".toList r := rfl

theorem occursIn_https_of_www (r : List Char) :
    occursIn "https://".toList ("www.".toList ++ r)
      = occursIn "https://".toList r := rfl

theorem pyReplace_lead_http {t : List Char}
    (h : occursIn "http://".toList t = false) :
    pyReplace ("http://".toList ++ t) "http://".toList [] = t := by
  have h₂ : pyReplace ("http://".toList ++ t) "http://".toList []
      = pyReplaceAux 'h' "ttp://".toList [] 0 t := rfl
  rw [h₂]
  exact pyReplaceAux_of_not_occursIn [] h

theorem pyReplace_lead_https {t : List Char}
    (h : occursIn "https://".toList t = false) :
    pyReplace ("https://".toList ++ t) "https://".toList [] = t := by
  have h₂ : pyReplace ("https://".toList ++ t) "https://".toList []
      = pyReplaceAux 'h' "ttps://".toList [] 0 t := rfl
  rw [h₂]
  exact pyReplaceAux_of_not_occursIn [] h

theorem pyReplace_lead_www {t : List Char}
    (h : occursIn "www.".toList t = false) :
    pyReplace ("www.".toList ++ t) "www.".toList [] = t := by
  have h₂ : pyReplace ("www.".toList ++ t) "www.".toList []
      = pyReplaceAux 'w' "ww.".toList [] 0 t := rfl
  rw [h₂]
  exact pyReplaceAux_of_not_occursIn [] h

/-! ### Claims -/

/-- Claim C1: for every domain, snapshot and ledger state, the notification
decision returns true if and only if the snapshot status is valid, its
days_until_expiry is at most 30, and the ledger either has no entry for the
domain or stores a value different from the snapshot day count; in
particular, with more than 30 days left or a non-valid status the decision
returns false. -/
theorem C1_notify_decision (domain : String) (info : SSLInfo) (sent : Ledger) :
    (shouldNotify domain info sent = true ↔
      info.status = Status.valid ∧ ∃ n, info.days_until_expiry = some n ∧ n ≤ 30 ∧
        (dictLookup sent domain = none ∨ dictLookup sent domain ≠ some n)) ∧
    ((info.status ≠ Status.valid ∨ (∀ n, info.days_until_expiry = some n → 30 < n)) →
      shouldNotify domain info sent = false) := by
  refine ⟨shouldNotify_true_iff domain info sent, ?_⟩
  intro h
  cases hb : shouldNotify domain info sent with
  | false => rfl
  | true =>
      obtain ⟨hs, n, hd, h30, _⟩ := (shouldNotify_true_iff domain info sent).mp hb
      rcases h with h | h
      · exact absurd hs h
      · have := h n hd
        omega

/-- Witness for C1 at a concrete error snapshot. -/
theorem C1_notify_decision_witness :
    shouldNotify "a" (get_ssl_info "a" (NetOutcome.failure "boom")) [] = false :=
  (C1_notify_decision "a" (get_ssl_info "a" (NetOutcome.failure "boom")) []).2
    (Or.inl (by decide))

/-- Claim C2: the inspection operation is total: any failing outcome yields
a snapshot with error status, an undefined day count, the exception
rendering as its error description (non-empty whenever the rendering is),
and the original non-normalized input preserved in both the domain and
clean_domain fields. -/
theorem C2_error_snapshot (domain msg : String) (h : msg ≠ "") :
    (get_ssl_info domain (NetOutcome.failure msg)).status = Status.error ∧
    (get_ssl_info domain (NetOutcome.failure msg)).domain = domain ∧
    (get_ssl_info domain (NetOutcome.failure msg)).clean_domain = domain ∧
    (get_ssl_info domain (NetOutcome.failure msg)).days_until_expiry = none ∧
    ∃ s, (get_ssl_info domain (NetOutcome.failure msg)).error = some s ∧ s ≠ "" :=
  ⟨rfl, rfl, rfl, rfl, msg, rfl, h⟩

/-- Witness for C2 at a concrete failure. -/
theorem C2_error_snapshot_witness :
    (get_ssl_info "bad.example" (NetOutcome.failure "timed out")).status = Status.error ∧
    (get_ssl_info "bad.example" (NetOutcome.failure "timed out")).domain = "bad.example" ∧
    (get_ssl_info "bad.example" (NetOutcome.failure "timed out")).clean_domain = "bad.example" ∧
    (get_ssl_info "bad.example" (NetOutcome.failure "timed out")).days_until_expiry = none ∧
    ∃ s, (get_ssl_info "bad.example" (NetOutcome.failure "timed out")).error = some s ∧ s ≠ "" :=
  C2_error_snapshot "bad.example" "timed out" (by decide)

/-- Claim C8: a successful inspection is classified valid exactly when the
day count is positive and expired otherwise; a snapshot with day count -5
is expired and its notification decision is false for every ledger. -/
theorem C8_status_classification (domain : String) (issuer : List (String × String))
    (notBefore notAfter : String) (expirySecs nowSecs : Int) (sent : Ledger) :
    (∀ n : Int,
      (get_ssl_info domain
        (NetOutcome.success issuer notBefore notAfter expirySecs nowSecs)).days_until_expiry
          = some n →
      (((get_ssl_info domain
          (NetOutcome.success issuer notBefore notAfter expirySecs nowSecs)).status
            = Status.valid ↔ 0 < n) ∧
        ((get_ssl_info domain
          (NetOutcome.success issuer notBefore notAfter expirySecs nowSecs)).status
            = Status.expired ↔ n ≤ 0))) ∧
    ((get_ssl_info domain
        (NetOutcome.success issuer notBefore notAfter expirySecs nowSecs)).days_until_expiry
          = some (-5) →
      (get_ssl_info domain
        (NetOutcome.success issuer notBefore notAfter expirySecs nowSecs)).status
          = Status.expired ∧
      shouldNotify domain
        (get_ssl_info domain
          (NetOutcome.success issuer notBefore notAfter expirySecs nowSecs)) sent = false) := by
  have hstat : (get_ssl_info domain
      (NetOutcome.success issuer notBefore notAfter expirySecs nowSecs)).status
        = if 0 < Int.fdiv (expirySecs - nowSecs) 86400 then Status.valid else Status.expired := rfl
  constructor
  · intro n hn
    have hd : Int.fdiv (expirySecs - nowSecs) 86400 = n := by
      simpa [get_ssl_info] using hn
    rw [hd] at hstat
    by_cases h0 : 0 < n
    · rw [hstat, if_pos h0]
      refine ⟨by simp [h0], ?_, ?_⟩
      · intro hq
        exact absurd hq (by decide)
      · intro hq
        exact absurd hq (by omega)
    · rw [hstat, if_neg h0]
      refine ⟨⟨?_, ?_⟩, by simp; omega⟩
      · intro hq
        exact absurd hq (by decide)
      · intro hq
        exact absurd hq h0
  · intro h₅
    have hd : Int.fdiv (expirySecs - nowSecs) 86400 = -5 := by
      simpa [get_ssl_info] using h₅
    rw [hd] at hstat
    have hstat₂ : (get_ssl_info domain
        (NetOutcome.success issuer notBefore notAfter expirySecs nowSecs)).status
          = Status.expired := by
      rw [hstat]
      norm_num
    exact ⟨hstat₂, by simp [shouldNotify, hstat₂]⟩

/-- Witness for C8 at a certificate five days past expiry. -/
theorem C8_status_classification_witness :
    (get_ssl_info "a" (NetOutcome.success [] "nb" "na" 0 432000)).status = Status.expired ∧
    shouldNotify "a" (get_ssl_info "a" (NetOutcome.success [] "nb" "na" 0 432000)) [] = false :=
  (C8_status_classification "a" [] "nb" "na" 0 432000 []).2 (by decide)

/-- Claim C9: recording a sent notification twice in succession with the
same value leaves the ledger in the same state as recording it once. -/
theorem C9_recordSent_idempotent (domain : String) (n : Int) (sent : Ledger) :
    recordSent domain n (recordSent domain n sent) = recordSent domain n sent :=
  dictInsert_idem domain n sent

/-- Claim C10: in every state reachable from the initial empty state via
the public operations, every domain key present in the notification ledger
is also present in the domain registry. -/
theorem C10_ledger_keys_registered {st : AppState} (h : Reachable st) :
    st.notifications_sent.all (fun kv => kv.1 ∈ st.domains) = true := by
  rw [List.all_eq_true]
  intro kv hkv
  exact decide_eq_true ((reachable_wf h).2.2 kv hkv)

/-- Witness for C10 at a concrete reachable state with one domain and one
ledger entry. -/
theorem C10_ledger_keys_registered_witness :
    ((add_domain "a" netSample ["e"] delSample ⟨[], []⟩).1.notifications_sent.all
      (fun kv => kv.1 ∈ (add_domain "a" netSample ["e"] delSample ⟨[], []⟩).1.domains)) = true :=
  C10_ledger_keys_registered (Reachable.add "a" netSample ["e"] delSample Reachable.init)

theorem background_checker_iter_countP (ds : List String) (net : String → NetOutcome)
    (emails : List String) (del : String → DeliveryOutcome) (s : Ledger) :
    (background_checker_iter ds net emails del s).2.countP isSleep = 1 := by
  unfold background_checker_iter
  cases hE : ds.isEmpty with
  | false =>
      simp only [hE, Bool.false_eq_true, if_false, List.countP_append]
      rw [show (check_domains ds net emails del s).2.countP isSleep = 0 from by
        have h₀ := foldl_checkStep_countP ds net emails del (s, [])
        simpa using h₀]
      simp [List.countP_cons, isSleep]
  | true => simp [hE, List.countP_cons, isSleep]

/-- Claim C3 counterexample: with one registered domain, the first event of
a loop iteration is the inspection of that domain, not the sleep, refuting
the claimed sleep-then-check order. -/
theorem C3_sleep_order_counterexample :
    ¬ ∀ (ds : List String) (net : String → NetOutcome) (emails : List String)
        (del : String → DeliveryOutcome) (sent : Ledger),
        (background_checker_iter ds net emails del sent).2
          = Event.sleep 3600 ::
              (if ds.isEmpty then [] else (check_domains ds net emails del sent).2) := by
  intro h
  have h₂ := h ["a"] (fun _ => NetOutcome.failure "unreachable") []
    (fun _ => DeliveryOutcome.delivered) []
  exact absurd h₂ (by decide)

/-- Claim C3 (amended): every iteration of the scheduler loop first runs
the check pass (when the registry is non-empty, inspecting every registered
domain) and then sleeps for the fixed one-hour interval; the loop repeats
indefinitely with no terminal state, the first n iterations contributing
exactly n sleep events. -/
theorem C3_scheduler_loop (ds : List String) (net : String → NetOutcome)
    (emails : List String) (del : String → DeliveryOutcome) (sent : Ledger) :
    ((background_checker_iter ds net emails del sent).2
        = (if ds.isEmpty then [] else (check_domains ds net emails del sent).2)
            ++ [Event.sleep 3600]) ∧
    (∀ d ∈ ds, Event.inspect d ∈ (background_checker_iter ds net emails del sent).2) ∧
    (∀ n : Nat, (background_checker_run ds net emails del sent n).2.countP isSleep = n) := by
  refine ⟨?_, ?_, ?_⟩
  · unfold background_checker_iter
    cases hE : ds.isEmpty <;> simp [hE]
  · intro d hd
    unfold background_checker_iter
    have hne : ds.isEmpty = false := by
      cases ds with
      | nil => simp at hd
      | cons a l => rfl
    simp only [hne, Bool.false_eq_true, if_false]
    exact List.mem_append_left _ (inspect_mem_foldl_checkStep net emails del (sent, []) hd)
  · intro n
    induction n with
    | zero => rfl
    | succ n ih =>
        show ((background_checker_run ds net emails del sent n).2
            ++ (background_checker_iter ds net emails del
                  (background_checker_run ds net emails del sent n).1).2).countP isSleep
          = n + 1
        rw [List.countP_append, ih, background_checker_iter_countP]

/-- Witness for C3 at a one-domain registry. -/
theorem C3_scheduler_loop_witness :
    Event.inspect "a" ∈ (background_checker_iter ["a"] netSample [] delSample []).2 :=
  (C3_scheduler_loop ["a"] netSample [] delSample []).2.1 "a" (by decide)

/-- Claim C4 counterexample: a registered domain whose alert condition
holds (ten days left, empty ledger) still has no ledger entry after the
manual-check trigger, refuting the claim that the manual check updates the
notification ledger for domains whose alert condition holds. -/
theorem C4_check_now_counterexample :
    ¬ ∀ (ds : List String) (net : String → NetOutcome) (sent : Ledger),
        ∀ d ∈ ds, shouldNotify d (get_ssl_info d (net d)) sent = true →
          dictLookup (check_now ds net sent).2 d
            = (get_ssl_info d (net d)).days_until_expiry := by
  intro h
  have h₂ := h ["a"] (fun _ => NetOutcome.success [] "nb" "na" 864000 0) [] "a"
    (by decide) (by decide)
  exact absurd h₂ (by decide)

/-- Claim C4 (amended): the manual-check trigger runs one inspection pass
over every registered domain and returns the fresh snapshots; it does not
route through the notify decision and leaves the notification ledger
unchanged. -/
theorem C4_check_now_frame (ds : List String) (net : String → NetOutcome) (sent : Ledger) :
    (check_now ds net sent).1 = ds.map (fun d => get_ssl_info d (net d)) ∧
    (check_now ds net sent).2 = sent :=
  ⟨rfl, rfl⟩

/-- Modelled from the spec (section 4.1 wording): normalization that strips
exactly one leading URI scheme, then one leading `www.` label, then the
path suffix, leaving every other occurrence intact.  Used only to compare
the claimed behavior with the code normalization `cleanDomainList`. -/
def specNormalizeList (s : List Char) : List Char :=
  let s₁ := if startsWith "http://".toList s then s.drop 7
            else if startsWith "https://".toList s then s.drop 8
            else s
  let s₂ := if startsWith "www.".toList s₁ then s₁.drop 4 else s₁
  firstSegment '/' s₂

/-- Claim C5 counterexample: on the input `foo.www.bar.com` the code
removes the non-leading `www.` (global replacement), while the claimed
leading-only normalization leaves it intact. -/
theorem C5_normalization_counterexample :
    cleanDomainList "foo.www.bar.com".toList = "foo.bar.com".toList ∧
    specNormalizeList "foo.www.bar.com".toList = "foo.www.bar.com".toList ∧
    cleanDomainList "foo.www.bar.com".toList
      ≠ specNormalizeList "foo.www.bar.com".toList :=
  ⟨by decide, by decide, by decide⟩

/-- Claim C5 (amended): the normalization removes every occurrence of
`http://`, then `https://`, then `www.` anywhere in the string and then
truncates at the first slash; consequently, on inputs made of an optional
leading scheme, an optional leading `www.` label, and a host followed by an
optional path, where the host-and-path part contains no further occurrence
of the three patterns, it returns exactly the bare host. -/
theorem C5_inspect_normalization (sch w host p : List Char)
    (hsch : sch = [] ∨ sch = "http://".toList ∨ sch = "https://".toList)
    (hw : w = [] ∨ w = "www.".toList)
    (h₁ : occursIn "http://".toList (host ++ p) = false)
    (h₂ : occursIn "https://".toList (host ++ p) = false)
    (h₃ : occursIn "www.".toList (host ++ p) = false)
    (hhost : ∀ c ∈ host, c ≠ '/')
    (hp : p = [] ∨ p.head? = some '/') :
    cleanDomainList (sch ++ (w ++ (host ++ p))) = host := by
  have hseg : firstSegment '/' (host ++ p) = host := firstSegment_append '/' hhost hp
  rcases hsch with rfl | rfl | rfl <;> rcases hw with rfl | rfl
  · simp only [List.nil_append]
    unfold cleanDomainList
    rw [pyReplace_of_not_occursIn [] h₁, pyReplace_of_not_occursIn [] h₂,
      pyReplace_of_not_occursIn [] h₃, hseg]
  · simp only [List.nil_append]
    unfold cleanDomainList
    rw [pyReplace_of_not_occursIn []
        (show occursIn "http://".toList ("www.".toList ++ (host ++ p)) = false from by
          rw [occursIn_http_of_www]; exact h₁),
      pyReplace_of_not_occursIn []
        (show occursIn "https://".toList ("www.".toList ++ (host ++ p)) = false from by
          rw [occursIn_https_of_www]; exact h₂),
      pyReplace_lead_www h₃, hseg]
  · simp only [List.nil_append]
    unfold cleanDomainList
    rw [pyReplace_lead_http h₁, pyReplace_of_not_occursIn [] h₂,
      pyReplace_of_not_occursIn [] h₃, hseg]
  · unfold cleanDomainList
    rw [pyReplace_lead_http
        (show occursIn "http://".toList ("www.".toList ++ (host ++ p)) = false from by
          rw [occursIn_http_of_www]; exact h₁),
      pyReplace_of_not_occursIn []
        (show occursIn "https://".toList ("www.".toList ++ (host ++ p)) = false from by
          rw [occursIn_https_of_www]; exact h₂),
      pyReplace_lead_www h₃, hseg]
  · simp only [List.nil_append]
    unfold cleanDomainList
    rw [pyReplace_of_not_occursIn []
        (show occursIn "http://".toList ("https://".toList ++ (host ++ p)) = false from by
          rw [occursIn_http_of_https]; exact h₁),
      pyReplace_lead_https h₂, pyReplace_of_not_occursIn [] h₃, hseg]
  · unfold cleanDomainList
    rw [pyReplace_of_not_occursIn []
        (show occursIn "http://".toList
            ("https://".toList ++ ("www.".toList ++ (host ++ p))) = false from by
          rw [occursIn_http_of_https, occursIn_http_of_www]; exact h₁),
      pyReplace_lead_https
        (show occursIn "https://".toList ("www.".toList ++ (host ++ p)) = false from by
          rw [occursIn_https_of_www]; exact h₂),
      pyReplace_lead_www h₃, hseg]

/-- Witness for C5 on a fully decorated input. -/
theorem C5_inspect_normalization_witness :
    cleanDomainList
        ("https://".toList ++ ("www.".toList ++ ("example.com".toList ++ "/path".toList)))
      = "example.com".toList :=
  C5_inspect_normalization "https://".toList "www.".toList "example.com".toList "/path".toList
    (Or.inr (Or.inr rfl)) (Or.inr rfl) (by decide) (by decide) (by decide) (by decide)
    (Or.inr (by decide))

/-- Claim C6: in every reachable state, removing a domain leaves it
unregistered and purges its notification-ledger entry, and re-adding it
while its certificate still reports the same alerting day count fires a
fresh notification (send attempt followed by a ledger write) with no stale
suppression. -/
theorem C6_remove_purges (st : AppState) (hr : Reachable st) (domain : String)
    (hne : domain ≠ "") (out : NetOutcome) (emails : List String)
    (del : String → DeliveryOutcome) (n : Int)
    (hdays : (get_ssl_info domain out).days_until_expiry = some n)
    (hvalid : (get_ssl_info domain out).status = Status.valid)
    (h30 : n ≤ 30) :
    domain ∉ (remove_domain domain st).domains ∧
    dictLookup (remove_domain domain st).notifications_sent domain = none ∧
    (add_domain domain (fun _ => out) emails del
        (remove_domain domain st)).1.notifications_sent
      = recordSent domain n (remove_domain domain st).notifications_sent ∧
    dictLookup (add_domain domain (fun _ => out) emails del
        (remove_domain domain st)).1.notifications_sent domain = some n ∧
    (add_domain domain (fun _ => out) emails del (remove_domain domain st)).2
      = [Event.inspect domain]
          ++ send_email_notification (get_ssl_info domain out) emails (del domain)
          ++ [Event.record domain n] := by
  obtain ⟨hnd, hkeys, hcov⟩ := reachable_wf hr
  have hmem : domain ∉ (remove_domain domain st).domains := by
    rcases remove_domain_result domain st with ⟨hnm, h₁⟩ | ⟨hm, hdom, _⟩
    · rw [h₁]; exact hnm
    · rw [hdom]
      intro hq
      exact absurd rfl ((List.Nodup.mem_erase_iff hnd).mp hq).1
  have hnone : dictLookup (remove_domain domain st).notifications_sent domain = none := by
    rcases remove_domain_result domain st with ⟨hnm, h₁⟩ | ⟨hm, _, hsent⟩
    · rw [h₁]
      cases hq : dictLookup st.notifications_sent domain with
      | none => rfl
      | some v => exact absurd (hcov (domain, v) (dictLookup_some_mem hq)) hnm
    · rcases hsent with h₂ | ⟨h₂, h₃⟩
      · rw [h₂]; exact dictLookup_dictErase_self hkeys
      · rw [h₂]; exact h₃
  have hadd : add_domain domain (fun _ => out) emails del (remove_domain domain st)
      = (⟨(remove_domain domain st).domains ++ [domain],
            recordSent domain n (remove_domain domain st).notifications_sent⟩,
          [Event.inspect domain]
            ++ send_email_notification (get_ssl_info domain out) emails (del domain)
            ++ [Event.record domain n]) := by
    rw [add_domain, if_pos ⟨hne, hmem⟩]
    simp [hvalid, hdays, h30]
  refine ⟨hmem, hnone, ?_, ?_, ?_⟩
  · rw [hadd]
  · rw [hadd]
    exact dictLookup_dictInsert_self domain n _
  · rw [hadd]

/-- Witness for C6: add a ten-day domain, remove it, re-add it with the
same countdown. -/
theorem C6_remove_purges_witness :
    "a" ∉ (remove_domain "a" (add_domain "a" netSample ["e"] delSample ⟨[], []⟩).1).domains ∧
    dictLookup (remove_domain "a"
        (add_domain "a" netSample ["e"] delSample ⟨[], []⟩).1).notifications_sent "a" = none ∧
    (add_domain "a" (fun _ => NetOutcome.success [] "nb" "na" 864000 0) ["e"] delSample
        (remove_domain "a"
          (add_domain "a" netSample ["e"] delSample ⟨[], []⟩).1)).1.notifications_sent
      = recordSent "a" 10
          (remove_domain "a"
            (add_domain "a" netSample ["e"] delSample ⟨[], []⟩).1).notifications_sent ∧
    dictLookup (add_domain "a" (fun _ => NetOutcome.success [] "nb" "na" 864000 0) ["e"]
        delSample (remove_domain "a"
          (add_domain "a" netSample ["e"] delSample ⟨[], []⟩).1)).1.notifications_sent "a"
      = some 10 ∧
    (add_domain "a" (fun _ => NetOutcome.success [] "nb" "na" 864000 0) ["e"] delSample
        (remove_domain "a" (add_domain "a" netSample ["e"] delSample ⟨[], []⟩).1)).2
      = [Event.inspect "a"]
          ++ send_email_notification
              (get_ssl_info "a" (NetOutcome.success [] "nb" "na" 864000 0)) ["e"]
              (delSample "a")
          ++ [Event.record "a" 10] :=
  C6_remove_purges _ (Reachable.add "a" netSample ["e"] delSample Reachable.init) "a"
    (by decide) (NetOutcome.success [] "nb" "na" 864000 0) ["e"] delSample 10
    (by decide) (by decide) (by decide)

/-- Claim C7: the ledger outcome of a check pass does not depend on the
delivery transport (a failure is dropped, never propagated), and whenever
the notification decision fires for a domain the pass inspects it, attempts
the send and then overwrites its ledger entry with the current day count,
after which a repeat decision at the same count is suppressed. -/
theorem C7_record_after_send (ds : List String) (net : String → NetOutcome)
    (emails : List String) (del del₂ : String → DeliveryOutcome) (sent : Ledger) :
    ((check_domains ds net emails del sent).1 = (check_domains ds net emails del₂ sent).1) ∧
    (∀ domain out (n : Int),
      (get_ssl_info domain out).days_until_expiry = some n →
      shouldNotify domain (get_ssl_info domain out) sent = true →
      (checkStep (fun _ => out) emails del (sent, []) domain
          = (recordSent domain n sent,
              [Event.inspect domain]
                ++ send_email_notification (get_ssl_info domain out) emails (del domain)
                ++ [Event.record domain n]) ∧
        dictLookup (checkStep (fun _ => out) emails del (sent, []) domain).1 domain
          = some n ∧
        shouldNotify domain (get_ssl_info domain out) (recordSent domain n sent)
          = false)) := by
  constructor
  · rw [check_domains_fst, check_domains_fst]
  · intro domain out n hd h
    have hstep : checkStep (fun _ => out) emails del (sent, []) domain
        = (recordSent domain n sent,
            [Event.inspect domain]
              ++ send_email_notification (get_ssl_info domain out) emails (del domain)
              ++ [Event.record domain n]) := by
      simp [checkStep, hd, h]
    refine ⟨hstep, ?_, ?_⟩
    · rw [hstep]
      exact dictLookup_dictInsert_self domain n sent
    · cases hb : shouldNotify domain (get_ssl_info domain out)
          (recordSent domain n sent) with
      | false => rfl
      | true =>
          obtain ⟨_, m, hm, _, hg₂⟩ := (shouldNotify_true_iff _ _ _).mp hb
          rw [hd] at hm
          injection hm with hm
          subst hm
          rcases hg₂ with hg₂ | hg₂ <;>
            rw [recordSent, dictLookup_dictInsert_self] at hg₂ <;> simp at hg₂

/-- Witness for C7: a ten-day domain with an empty ledger, checked against
a failing transport. -/
theorem C7_record_after_send_witness :
    checkStep (fun _ => NetOutcome.success [] "nb" "na" 864000 0) ["e"]
        (fun _ => DeliveryOutcome.failed "smtp down") ([], []) "a"
      = (recordSent "a" 10 [],
          [Event.inspect "a"]
            ++ send_email_notification
                (get_ssl_info "a" (NetOutcome.success [] "nb" "na" 864000 0)) ["e"]
                ((fun _ => DeliveryOutcome.failed "smtp down") "a")
            ++ [Event.record "a" 10]) ∧
    dictLookup (checkStep (fun _ => NetOutcome.success [] "nb" "na" 864000 0) ["e"]
        (fun _ => DeliveryOutcome.failed "smtp down") ([], []) "a").1 "a" = some 10 ∧
    shouldNotify "a" (get_ssl_info "a" (NetOutcome.success [] "nb" "na" 864000 0))
        (recordSent "a" 10 []) = false :=
  (C7_record_after_send ["a"] (fun _ => NetOutcome.success [] "nb" "na" 864000 0) ["e"]
      (fun _ => DeliveryOutcome.failed "smtp down")
      (fun _ => DeliveryOutcome.delivered) []).2 "a"
    (NetOutcome.success [] "nb" "na" 864000 0) 10 (by decide) (by decide)

end SSLWatcher
